import Mathlib

/-!
# Shallow embedding of `src/myAssets.js`

An Express service exposing `GET /api/liquidity-rates`: it aggregates a fixed
wallet's Aave deposit positions across six networks, enriches them with token
metadata (with a 24-hour token-list cache) and USD valuation, and returns a
JSON array of per-network results.

Modelling conventions:
* JavaScript numbers are modelled as `ℚ` (exact rationals); the spec's
  "within floating-point tolerance" becomes exact equality over `ℚ`.
* `ethers.BigNumber` arithmetic (`mul`/`div`) is modelled on `ℕ` with
  truncating division, matching BigNumber's integer division on the
  non-negative values that occur here.
* A JS `Map` is modelled as an association list `List (String × α)` with
  `mapGet`/`mapSet` mirroring `Map.get`/`Map.set` (set updates in place,
  preserving insertion order, else appends).
* `async`/`await` and exceptions are made explicit: a fallible external call
  is an `Option`-valued input, and a thrown-and-caught exception becomes an
  explicit `none`/branch at the `catch` site that handles it in the source.
-/

/-- JS `String.prototype.toLowerCase`: lower-case every character (the
strings involved are ASCII addresses and ticker symbols). -/
def strLower (s : String) : String :=
  ⟨s.data.map Char.toLower⟩

/-- JS `String.prototype.toUpperCase`: upper-case every character. -/
def strUpper (s : String) : String :=
  ⟨s.data.map Char.toUpper⟩

/-- JS `Map.get`: the value stored under the first (unique) matching key. -/
def mapGet {α : Type} : List (String × α) → String → Option α
  | [], _ => none
  | (k', v) :: rest, k => if k' = k then some v else mapGet rest k

/-- JS `Map.set`: replace the value in place if the key is present (keeping
insertion order), otherwise append the new entry. -/
def mapSet {α : Type} : List (String × α) → String → α → List (String × α)
  | [], k, v => [(k, v)]
  | (k', v') :: rest, k, v =>
    if k' = k then (k', v) :: rest else (k', v') :: mapSet rest k v

/-- One `{symbol, name, logoURI}` entry of a fetched token-list document
(`tokenList.tokens` in `fetchTokenList`). -/
structure Token where
  symbol : String
  name : String
  logoURI : String
deriving DecidableEq, Repr

/-- The value stored in the symbol-keyed token map built by `fetchTokenList`
(lines 77–81 of `src/myAssets.js`). -/
structure TokenMetadata where
  name : String
  symbol : String
  image_url : String
deriving DecidableEq, Repr

/-- The symbol → metadata map returned by `fetchTokenList`. -/
abbrev TokenMap := List (String × TokenMetadata)

/-- One entry of `tokenListCache`: `{data, timestamp}` (timestamp in ms). -/
structure CacheEntry where
  data : TokenMap
  timestamp : ℕ
deriving DecidableEq, Repr

/-- The process-wide `tokenListCache` `Map`, keyed by network name. -/
abbrev TokenListCache := List (String × CacheEntry)

/-- `CACHE_DURATION = 24 * 60 * 60 * 1000` — 24 hours in milliseconds. -/
def CACHE_DURATION : ℕ := 24 * 60 * 60 * 1000

/-- What a call to `fetchTokenList` did: returned the cached map, fetched and
cached a fresh one, or hit the `catch` branch (warning logged, empty map). -/
inductive FetchEvent where
  | servedCache
  | fetchedFresh
  | failedWarned
deriving DecidableEq, Repr

/-- Result of one `fetchTokenList` call: the returned map, the cache state
after the call, and which path was taken. -/
structure FetchTokenListResult where
  data : TokenMap
  cache : TokenListCache
  event : FetchEvent
deriving DecidableEq, Repr

/-- Lines 74–82: build the uppercase-symbol-keyed map from the fetched token
list (`tokenList.tokens.forEach(token => tokenMap.set(...))`). -/
def buildTokenMap (tokens : List Token) : TokenMap :=
  tokens.foldl
    (fun m token =>
      mapSet m (strUpper token.symbol)
        { name := token.name, symbol := token.symbol, image_url := token.logoURI })
    []

/-- Lines 60–94, `fetchTokenList(networkName)`.  The wall clock `Date.now()`
is the explicit argument `now`; the outcome of the HTTP fetch + JSON parse is
the argument `fetchOutcome` (`none` models any thrown error: a non-ok
response, a parse failure, or a document without a `tokens` array — all are
caught by the `catch`, which logs a warning and returns a new empty `Map`
without touching the cache). -/
def fetchTokenList (cache : TokenListCache) (networkName : String) (now : ℕ)
    (fetchOutcome : Option (List Token)) : FetchTokenListResult :=
  match mapGet cache networkName with
  | some cachedData =>
    if now - cachedData.timestamp < CACHE_DURATION then
      { data := cachedData.data, cache := cache, event := .servedCache }
    else
      match fetchOutcome with
      | none => { data := [], cache := cache, event := .failedWarned }
      | some tokens =>
        let tokenMap := buildTokenMap tokens
        { data := tokenMap
          cache := mapSet cache networkName { data := tokenMap, timestamp := now }
          event := .fetchedFresh }
  | none =>
    match fetchOutcome with
    | none => { data := [], cache := cache, event := .failedWarned }
    | some tokens =>
      let tokenMap := buildTokenMap tokens
      { data := tokenMap
        cache := mapSet cache networkName { data := tokenMap, timestamp := now }
        event := .fetchedFresh }

/-- Line 63's guard `cachedData && Date.now() - cachedData.timestamp <
CACHE_DURATION`: the cache holds a fresh entry for this network at time
`now`. -/
def hasFreshEntry (cache : TokenListCache) (networkName : String) (now : ℕ) : Bool :=
  match mapGet cache networkName with
  | some cachedData => decide (now - cachedData.timestamp < CACHE_DURATION)
  | none => false

/-- Lines 96–98, `normalizeBalance(balance, decimals = 18)`:
`parseFloat(ethers.utils.formatUnits(balance, decimals))`, i.e. the integer
`balance` divided by `10^decimals`, modelled exactly over `ℚ`. -/
def normalizeBalance (balance : ℕ) (decimals : ℕ := 18) : ℚ :=
  (balance : ℚ) / 10 ^ decimals

/-- One element of `userReservesResult.userReserves`: the fixed wallet's
position in one reserve.  `scaledATokenBalance` is a decimal integer string
in the source (`parseFloat` / `BigNumber.from` are applied to it); it is
modelled as the integer itself. -/
structure UserReserve where
  underlyingAsset : String
  scaledATokenBalance : ℕ
deriving DecidableEq, Repr

/-- One element of `reservesResult.reservesData`: the market data of one
reserve.  `liquidityIndex`, `liquidityRate` and
`priceInMarketReferenceCurrency` are decimal integer strings in the source,
modelled as the integers themselves. -/
structure ReserveSnapshot where
  underlyingAsset : String
  symbol : String
  decimals : ℕ
  liquidityIndex : ℕ
  liquidityRate : ℕ
  priceInMarketReferenceCurrency : ℕ
deriving DecidableEq, Repr

/-- The per-asset output object built at lines 152–161. -/
structure AssetResult where
  underlyingAsset : String
  symbol : String
  name : String
  tokenBalance : ℚ
  priceInUSD : ℚ
  balanceInUSD : ℚ
  liquidityRate : ℚ
  image_url : String
deriving DecidableEq, Repr

/-- The per-network output object built at lines 166–172. -/
structure NetworkResult where
  network : String
  networkName : String
  networkImage : String
  assets : List AssetResult
  totalBalanceUSD : ℚ
deriving DecidableEq, Repr

/-- The generic placeholder image URL used when a symbol is absent from the
token list (line 149). -/
def placeholderImage : String :=
  "https://raw.githubusercontent.com/trustwallet/assets/master/blockchains/ethereum/assets/0x0000000000000000000000000000000000000000/logo.png"

/-- Display metadata of one configured network (`networkMetadata` values). -/
structure NetMeta where
  name : String
  image_url : String
deriving DecidableEq, Repr

/-- Lines 29–54, the `networkMetadata` table. -/
def networkMetadata : List (String × NetMeta) :=
  [("ethereum",
    { name := "Ethereum"
      image_url := "https://raw.githubusercontent.com/trustwallet/assets/master/blockchains/ethereum/info/logo.png" }),
   ("polygon",
    { name := "Polygon"
      image_url := "https://raw.githubusercontent.com/trustwallet/assets/master/blockchains/polygon/info/logo.png" }),
   ("avalanche",
    { name := "Avalanche"
      image_url := "https://raw.githubusercontent.com/trustwallet/assets/master/blockchains/avalanchec/info/logo.png" }),
   ("base",
    { name := "Base"
      image_url := "https://raw.githubusercontent.com/trustwallet/assets/master/blockchains/base/info/logo.png" }),
   ("arbitrum",
    { name := "Arbitrum"
      image_url := "https://raw.githubusercontent.com/trustwallet/assets/master/blockchains/arbitrum/info/logo.png" }),
   ("optimism",
    { name := "Optimism"
      image_url := "https://raw.githubusercontent.com/trustwallet/assets/master/blockchains/optimism/info/logo.png" })]

/-- Lines 9–16, `chainProviders`: network name → RPC endpoint URL.  The
handler iterates `Object.entries(chainProviders)` in this (insertion)
order. -/
def chainProviders : List (String × String) :=
  [("ethereum", "https://eth-mainnet.public.blastapi.io"),
   ("polygon", "https://polygon-mainnet.public.blastapi.io"),
   ("avalanche", "https://ava-mainnet.public.blastapi.io/ext/bc/C/rpc"),
   ("base", "https://base-mainnet.public.blastapi.io"),
   ("arbitrum", "https://arbitrum-one.public.blastapi.io"),
   ("optimism", "https://optimism-mainnet.public.blastapi.io")]

/-- The body of the async callback at lines 123–162: resolve one positive
user reserve against the market data.  Returns `none` (JS `null`) when no
`reservesData` entry matches the underlying asset address
case-insensitively. -/
def processReserve (tokenList : TokenMap) (reservesData : List ReserveSnapshot)
    (reserve : UserReserve) : Option AssetResult :=
  match reservesData.find?
      (fun r => strLower r.underlyingAsset == strLower reserve.underlyingAsset) with
  | none => none
  | some reserveData =>
    let scaledBalance := reserve.scaledATokenBalance
    let liquidityIndex := reserveData.liquidityIndex
    let decimals := reserveData.decimals
    let rawBalance := scaledBalance * liquidityIndex / 10 ^ 27
    let normalizedBalance := normalizeBalance rawBalance decimals
    let priceInUSD := normalizeBalance reserveData.priceInMarketReferenceCurrency 8
    let balanceInUSD := normalizedBalance * priceInUSD
    let liquidityRateAPR := (reserveData.liquidityRate : ℚ) / 10 ^ 27 * 100
    let liquidityRateAPY := ((1 + liquidityRateAPR / 100 / 365) ^ (365 : ℕ) - 1) * 100
    let tokenMetadata :=
      (mapGet tokenList (strUpper reserveData.symbol)).getD
        { name := reserveData.symbol
          symbol := reserveData.symbol
          image_url := placeholderImage }
    some
      { underlyingAsset := reserve.underlyingAsset
        symbol := reserveData.symbol
        name := tokenMetadata.name
        tokenBalance := normalizedBalance
        priceInUSD := priceInUSD
        balanceInUSD := balanceInUSD
        liquidityRate := liquidityRateAPY
        image_url := tokenMetadata.image_url }

/-- Lines 120–163: the (awaited) `assets` array — positive-balance user
reserves mapped through the resolver, unmatched ones as `none` (JS
`null`). -/
def computeAssets (tokenList : TokenMap) (reservesData : List ReserveSnapshot)
    (userReserves : List UserReserve) : List (Option AssetResult) :=
  (userReserves.filter (fun reserve => decide (0 < reserve.scaledATokenBalance))).map
    (processReserve tokenList reservesData)

/-- Line 171, `assets.reduce((sum, asset) => sum + asset.balanceInUSD, 0)`
over the UNFILTERED `assets` array.  When the fold reaches a `null` element,
`asset.balanceInUSD` throws a `TypeError` in JS; this is modelled as `none`
(once thrown, nothing later executes, so the fold stays `none`). -/
def sumAssetsUSD (assets : List (Option AssetResult)) : Option ℚ :=
  assets.foldl
    (fun sum asset =>
      match sum, asset with
      | some s, some a => some (s + a.balanceInUSD)
      | _, _ => none)
    (some 0)

/-- The outcome of the two data-provider RPC calls of lines 109–116:
`failure` models any thrown RPC/contract error, `success` carries
`userReserves` and `reservesData`. -/
inductive RpcOutcome where
  | failure : RpcOutcome
  | success : List UserReserve → List ReserveSnapshot → RpcOutcome
deriving DecidableEq, Repr

/-- Lines 100–178, `fetchContractData(chain, provider)`.  The RPC outcome and
the token map (obtained via `fetchTokenList(chain)` at line 118) are explicit
arguments.  Everything runs under one `try`: an RPC failure, an unknown
`chain` key (the `markets[chainKey].…` / `networkMetadata[chain].…` property
accesses throw), or the `TypeError` thrown by the `totalBalanceUSD` reduction
on a `null` asset, are all caught at line 174 and yield `null` (`none`). -/
def fetchContractData (chain : String) (outcome : RpcOutcome)
    (tokenList : TokenMap) : Option NetworkResult :=
  match outcome with
  | .failure => none
  | .success userReserves reservesData =>
    match mapGet networkMetadata chain with
    | none => none
    | some meta =>
      let assets := computeAssets tokenList reservesData userReserves
      if 0 < (assets.filterMap id).length then
        match sumAssetsUSD assets with
        | none => none
        | some total =>
          some
            { network := chain
              networkName := meta.name
              networkImage := meta.image_url
              assets := assets.filterMap id
              totalBalanceUSD := total }
      else none

/-- The HTTP response of the `/api/liquidity-rates` handler: `res.json`
responds with status 200 and the serialized array. -/
structure HttpResponse where
  status : ℕ
  body : List NetworkResult
deriving DecidableEq, Repr

/-- Lines 183–201, the `GET /api/liquidity-rates` handler: iterate the
configured chains in order, keep the non-null per-network results, respond
`200` with the array.  `fetchContractData` never throws (its own
`try`/`catch` returns `null` instead), so the handler's 500 branch is
unreachable and the status is always 200.  Each network's RPC outcome and
token map are given by the argument functions. -/
def handleLiquidityRates (outcomes : String → RpcOutcome)
    (tokenLists : String → TokenMap) : HttpResponse :=
  { status := 200
    body :=
      chainProviders.filterMap
        (fun p => fetchContractData p.1 (outcomes p.1) (tokenLists p.1)) }

/-! ## Helper lemmas -/

theorem mapGet_mapSet_self {α : Type} (m : List (String × α)) (k : String) (v : α) :
    mapGet (mapSet m k v) k = some v := by
  induction m with
  | nil => simp [mapSet, mapGet]
  | cons p rest ih =>
    obtain ⟨k', v'⟩ := p
    by_cases h : k' = k
    · subst h
      simp [mapSet, mapGet]
    · simp [mapSet, mapGet, h, ih]

/-- When line 63's freshness guard fails, `fetchTokenList` goes to the fetch:
on error it returns the empty map leaving the cache alone, on success it
returns the freshly built map and caches it under the current timestamp. -/
theorem fetchTokenList_of_not_fresh (cache : TokenListCache) (network : String)
    (now : ℕ) (o : Option (List Token))
    (h : hasFreshEntry cache network now = false) :
    fetchTokenList cache network now o =
      match o with
      | none => { data := [], cache := cache, event := .failedWarned }
      | some tokens =>
        { data := buildTokenMap tokens
          cache := mapSet cache network { data := buildTokenMap tokens, timestamp := now }
          event := .fetchedFresh } := by
  rw [hasFreshEntry] at h
  cases hm : mapGet cache network with
  | none =>
    simp only [fetchTokenList, hm]
  | some e =>
    rw [hm] at h
    simp only [decide_eq_false_iff_not] at h
    simp only [fetchTokenList, hm, if_neg h]

/-- When line 63's freshness guard holds, `fetchTokenList` returns the cached
map and leaves the cache untouched, whatever the network would have
answered. -/
theorem fetchTokenList_of_fresh (cache : TokenListCache) (network : String)
    (now : ℕ) (o : Option (List Token)) (e : CacheEntry)
    (hm : mapGet cache network = some e)
    (hf : now - e.timestamp < CACHE_DURATION) :
    fetchTokenList cache network now o =
      { data := e.data, cache := cache, event := .servedCache } := by
  simp only [fetchTokenList, hm, if_pos hf]

/-! ## Claims about the token-list cache (`fetchTokenList`) -/

/-- Claim C5: after a successful fetch for a network stored at time `t0`, a
second call within 24 hours (`t1 - t0 < CACHE_DURATION`) returns the cached
map unchanged without performing a new fetch (the `servedCache` path, taken
whatever the network would answer); a call after expiry performs a fresh
fetch and replaces the cached entry with the new map and timestamp. -/
theorem tokenListCache_second_call (cache : TokenListCache) (network : String)
    (t0 t1 : ℕ) (tokens tokens2 : List Token) (o : Option (List Token))
    (hmiss : hasFreshEntry cache network t0 = false) :
    (t1 - t0 < CACHE_DURATION →
      fetchTokenList (fetchTokenList cache network t0 (some tokens)).cache network t1 o =
        { data := (fetchTokenList cache network t0 (some tokens)).data
          cache := (fetchTokenList cache network t0 (some tokens)).cache
          event := .servedCache }) ∧
    (CACHE_DURATION ≤ t1 - t0 →
      fetchTokenList (fetchTokenList cache network t0 (some tokens)).cache network t1 (some tokens2) =
        { data := buildTokenMap tokens2
          cache := mapSet (fetchTokenList cache network t0 (some tokens)).cache network
                     { data := buildTokenMap tokens2, timestamp := t1 }
          event := .fetchedFresh }) := by
  have h0 := fetchTokenList_of_not_fresh cache network t0 (some tokens) hmiss
  simp only [h0]
  have hc : mapGet (mapSet cache network { data := buildTokenMap tokens, timestamp := t0 })
      network = some { data := buildTokenMap tokens, timestamp := t0 } :=
    mapGet_mapSet_self cache network _
  constructor
  · intro hlt
    exact fetchTokenList_of_fresh _ network t1 o _ hc hlt
  · intro hge
    have hmiss2 : hasFreshEntry
        (mapSet cache network { data := buildTokenMap tokens, timestamp := t0 })
        network t1 = false := by
      rw [hasFreshEntry, hc]
      simpa using Nat.not_lt.mpr hge
    exact fetchTokenList_of_not_fresh _ network t1 (some tokens2) hmiss2

theorem tokenListCache_second_call_witness :
    (fetchTokenList
        (fetchTokenList [] "ethereum" 0 (some [⟨"usdc", "USD Coin", "img"⟩])).cache
        "ethereum" 1000 none).event = .servedCache ∧
    (fetchTokenList
        (fetchTokenList [] "ethereum" 0 (some [⟨"usdc", "USD Coin", "img"⟩])).cache
        "ethereum" CACHE_DURATION (some [])).event = .fetchedFresh := by
  constructor
  · rw [(tokenListCache_second_call [] "ethereum" 0 1000 [⟨"usdc", "USD Coin", "img"⟩]
      [] none rfl).1 (by decide)]
  · rw [(tokenListCache_second_call [] "ethereum" 0 CACHE_DURATION
      [⟨"usdc", "USD Coin", "img"⟩] [] none rfl).2 (by simp)]

/-- Claim C6: when the freshness guard fails (so a fetch is attempted) and
the fetch or parse throws, `fetchTokenList` catches the error (the
`failedWarned` path: `console.warn` at line 91) and returns an empty map —
the function is total, so nothing propagates to the caller. -/
theorem tokenList_fetch_error_caught (cache : TokenListCache) (network : String)
    (now : ℕ) (hmiss : hasFreshEntry cache network now = false) :
    fetchTokenList cache network now none =
      { data := [], cache := cache, event := .failedWarned } :=
  fetchTokenList_of_not_fresh cache network now none hmiss

theorem tokenList_fetch_error_caught_witness :
    fetchTokenList [] "polygon" 5 none =
      { data := [], cache := [], event := .failedWarned } :=
  tokenList_fetch_error_caught [] "polygon" 5 rfl

/-- Claim C10: a failed fetch stores nothing: the cache is returned
unchanged, so a later call for the same network (now or after, as long as
the cache held no fresh entry for it) goes to the network again instead of
serving a cached empty map. -/
theorem failed_fetch_not_cached (cache : TokenListCache) (network : String)
    (now later : ℕ) (o : Option (List Token))
    (hmiss : hasFreshEntry cache network now = false)
    (hmiss2 : hasFreshEntry cache network later = false) :
    (fetchTokenList cache network now none).cache = cache ∧
    (fetchTokenList (fetchTokenList cache network now none).cache network later o).event ≠
      .servedCache := by
  have h0 := fetchTokenList_of_not_fresh cache network now none hmiss
  simp only [h0]
  refine ⟨trivial, ?_⟩
  rw [fetchTokenList_of_not_fresh cache network later o hmiss2]
  cases o <;> simp

theorem failed_fetch_not_cached_witness :
    (fetchTokenList [("avalanche", { data := [], timestamp := 0 })] "avalanche"
        CACHE_DURATION none).cache = [("avalanche", { data := [], timestamp := 0 })] ∧
    (fetchTokenList
        (fetchTokenList [("avalanche", { data := [], timestamp := 0 })] "avalanche"
          CACHE_DURATION none).cache
        "avalanche" (CACHE_DURATION + 5) (some [])).event ≠ .servedCache :=
  failed_fetch_not_cached [("avalanche", { data := [], timestamp := 0 })] "avalanche"
    CACHE_DURATION (CACHE_DURATION + 5) (some []) (by decide) (by decide)

/-! ## Claims about the HTTP handler and the per-network fetcher -/

/-- Claim C7: if every configured network's RPC call fails, every
`fetchContractData` returns `null` inside its own `try`/`catch`, so the
handler still answers status 200 with an empty JSON array; each network is
processed independently of the others' failures. -/
theorem all_networks_fail_empty_200 (outcomes : String → RpcOutcome)
    (tokenLists : String → TokenMap)
    (hfail : ∀ p ∈ chainProviders, outcomes p.1 = .failure) :
    handleLiquidityRates outcomes tokenLists = { status := 200, body := [] } := by
  unfold handleLiquidityRates
  have hnone : chainProviders.filterMap
      (fun p => fetchContractData p.1 (outcomes p.1) (tokenLists p.1)) = [] :=
    List.filterMap_eq_nil_iff.mpr (fun p hp => by rw [hfail p hp]; rfl)
  rw [hnone]

theorem all_networks_fail_empty_200_witness :
    handleLiquidityRates (fun _ => .failure) (fun _ => []) =
      { status := 200, body := [] } :=
  all_networks_fail_empty_200 (fun _ => .failure) (fun _ => []) (fun _ _ => rfl)

/-- Claim C1 fails on the code: a network whose positive-balance reserves
yield one resolved asset (address matched case-insensitively) and one
unmatched (`null`) entry reaches line 165 with a surviving asset, yet
`fetchContractData` returns `null` instead of a `NetworkResult`: the
`totalBalanceUSD` reduction reads `.balanceInUSD` of the `null` element and
the thrown `TypeError` is caught at line 174.  The first conjunct shows one
asset survived the `filter(Boolean)`; the second shows the whole network is
dropped all the same, so no sum over the unfiltered list (nulls as 0) is
ever returned. -/
theorem totalBalance_typeError_on_null :
    ((computeAssets [] [⟨"0xaaa", "AAA", 6, 2 * 10 ^ 27, 0, 10 ^ 8⟩]
        [⟨"0xAAA", 1000⟩, ⟨"0xbbb", 5⟩]).filterMap id).length = 1 ∧
    fetchContractData "ethereum"
      (.success [⟨"0xAAA", 1000⟩, ⟨"0xbbb", 5⟩]
        [⟨"0xaaa", "AAA", 6, 2 * 10 ^ 27, 0, 10 ^ 8⟩]) [] = none :=
  ⟨rfl, rfl⟩

/-- Claim C2 fails on the code for the same reason as C1: the unmatched
reserve `0xddd` is resolved to `null` (first conjunct, the diagnostic path of
lines 128–131) and the matched reserve `0xCCC` does produce an asset (second
conjunct), yet the network's output is not "its other assets": the whole
network is dropped (third conjunct), because the `totalBalanceUSD` reduction
throws a `TypeError` on the `null` element. -/
theorem unmatched_reserve_drops_network :
    processReserve [] [⟨"0xccc", "CCC", 0, 3 * 10 ^ 27, 0, 10 ^ 8⟩] ⟨"0xddd", 7⟩ = none ∧
    (processReserve [] [⟨"0xccc", "CCC", 0, 3 * 10 ^ 27, 0, 10 ^ 8⟩] ⟨"0xCCC", 2⟩).isSome = true ∧
    fetchContractData "polygon"
      (.success [⟨"0xCCC", 2⟩, ⟨"0xddd", 7⟩]
        [⟨"0xccc", "CCC", 0, 3 * 10 ^ 27, 0, 10 ^ 8⟩]) [] = none :=
  ⟨rfl, rfl, rfl⟩

/-- Claim C8: for a matched user reserve, the output `tokenBalance` is the
real balance `scaledBalance * liquidityIndex / 10^27` (integer BigNumber
division) normalized by the reserve's decimals. -/
theorem matched_reserve_balance_formula (tokenList : TokenMap)
    (reservesData : List ReserveSnapshot) (reserve : UserReserve)
    (r : ReserveSnapshot)
    (hfind : reservesData.find?
        (fun x => strLower x.underlyingAsset == strLower reserve.underlyingAsset) = some r) :
    ∃ a, processReserve tokenList reservesData reserve = some a ∧
      a.tokenBalance =
        normalizeBalance (reserve.scaledATokenBalance * r.liquidityIndex / 10 ^ 27)
          r.decimals := by
  unfold processReserve
  rw [hfind]
  exact ⟨_, rfl, rfl⟩

theorem matched_reserve_balance_formula_witness :
    ∃ a, processReserve [] [⟨"0x01", "DAI", 6, 105 * 10 ^ 25, 0, 10 ^ 8⟩]
        ⟨"0x01", 1000⟩ = some a ∧
      a.tokenBalance = 21 / 20000 := by
  obtain ⟨a, ha, hb⟩ :=
    matched_reserve_balance_formula [] [⟨"0x01", "DAI", 6, 105 * 10 ^ 25, 0, 10 ^ 8⟩]
      ⟨"0x01", 1000⟩ ⟨"0x01", "DAI", 6, 105 * 10 ^ 25, 0, 10 ^ 8⟩ rfl
  refine ⟨a, ha, ?_⟩
  rw [hb]
  show normalizeBalance 1050 6 = 21 / 20000
  unfold normalizeBalance
  norm_num

/-- Claim C9: for a matched reserve whose (upper-cased) symbol is absent from
the token list, the asset falls back to `name = symbol` and the generic
placeholder image; `processReserve` still returns an asset (nothing is
thrown). -/
theorem missing_token_metadata_fallback (tokenList : TokenMap)
    (reservesData : List ReserveSnapshot) (reserve : UserReserve)
    (r : ReserveSnapshot)
    (hfind : reservesData.find?
        (fun x => strLower x.underlyingAsset == strLower reserve.underlyingAsset) = some r)
    (hmiss : mapGet tokenList (strUpper r.symbol) = none) :
    ∃ a, processReserve tokenList reservesData reserve = some a ∧
      a.name = r.symbol ∧ a.image_url = placeholderImage := by
  unfold processReserve
  simp only [hfind, hmiss, Option.getD_none]
  exact ⟨_, rfl, rfl, rfl⟩

theorem missing_token_metadata_fallback_witness :
    ∃ a, processReserve [("WETH", ⟨"Wrapped Ether", "WETH", "https://img.example/weth.png"⟩)]
        [⟨"0x02", "GHO", 18, 10 ^ 27, 0, 10 ^ 8⟩] ⟨"0x02", 42⟩ = some a ∧
      a.name = "GHO" ∧ a.image_url = placeholderImage := by
  obtain ⟨a, ha, hn, hi⟩ :=
    missing_token_metadata_fallback
      [("WETH", ⟨"Wrapped Ether", "WETH", "https://img.example/weth.png"⟩)]
      [⟨"0x02", "GHO", 18, 10 ^ 27, 0, 10 ^ 8⟩] ⟨"0x02", 42⟩
      ⟨"0x02", "GHO", 18, 10 ^ 27, 0, 10 ^ 8⟩ rfl rfl
  exact ⟨a, ha, hn, hi⟩

/-- Forward evaluation of `processReserve` on a matched reserve: the exact
asset record produced by lines 133–161. -/
theorem processReserve_spec (tokenList : TokenMap)
    (reservesData : List ReserveSnapshot) (reserve : UserReserve)
    (r : ReserveSnapshot)
    (hfind : reservesData.find?
        (fun x => strLower x.underlyingAsset == strLower reserve.underlyingAsset) = some r) :
    processReserve tokenList reservesData reserve = some
      { underlyingAsset := reserve.underlyingAsset
        symbol := r.symbol
        name := ((mapGet tokenList (strUpper r.symbol)).getD
          { name := r.symbol, symbol := r.symbol, image_url := placeholderImage }).name
        tokenBalance :=
          normalizeBalance (reserve.scaledATokenBalance * r.liquidityIndex / 10 ^ 27) r.decimals
        priceInUSD := normalizeBalance r.priceInMarketReferenceCurrency 8
        balanceInUSD :=
          normalizeBalance (reserve.scaledATokenBalance * r.liquidityIndex / 10 ^ 27) r.decimals *
            normalizeBalance r.priceInMarketReferenceCurrency 8
        liquidityRate :=
          ((1 + (r.liquidityRate : ℚ) / 10 ^ 27 * 100 / 100 / 365) ^ (365 : ℕ) - 1) * 100
        image_url := ((mapGet tokenList (strUpper r.symbol)).getD
          { name := r.symbol, symbol := r.symbol, image_url := placeholderImage }).image_url } := by
  unfold processReserve
  rw [hfind]

/-- Inversion of `processReserve`: every produced asset comes from a matched
`ReserveSnapshot`, and its numeric fields satisfy the formulas of lines
133–141. -/
theorem processReserve_eq_some {tokenList : TokenMap}
    {reservesData : List ReserveSnapshot} {reserve : UserReserve} {a : AssetResult}
    (h : processReserve tokenList reservesData reserve = some a) :
    ∃ r, reservesData.find?
        (fun x => strLower x.underlyingAsset == strLower reserve.underlyingAsset) = some r ∧
      a.tokenBalance =
        normalizeBalance (reserve.scaledATokenBalance * r.liquidityIndex / 10 ^ 27) r.decimals ∧
      a.priceInUSD = normalizeBalance r.priceInMarketReferenceCurrency 8 ∧
      a.balanceInUSD = a.tokenBalance * a.priceInUSD := by
  cases hf : reservesData.find?
      (fun x => strLower x.underlyingAsset == strLower reserve.underlyingAsset) with
  | none =>
    unfold processReserve at h
    rw [hf] at h
    exact absurd h (by simp)
  | some r =>
    rw [processReserve_spec tokenList reservesData reserve r hf] at h
    obtain rfl := Option.some.inj h
    exact ⟨r, rfl, rfl, rfl, rfl⟩

/-- Every asset in the HTTP response body originates from a positive-balance
user reserve of a successfully fetched network, resolved by
`processReserve`. -/
theorem response_asset_origin {outcomes : String → RpcOutcome}
    {tokenLists : String → TokenMap} {nr : NetworkResult} {a : AssetResult}
    (hnr : nr ∈ (handleLiquidityRates outcomes tokenLists).body)
    (ha : a ∈ nr.assets) :
    ∃ chain userReserves reservesData reserve,
      outcomes chain = .success userReserves reservesData ∧
      0 < reserve.scaledATokenBalance ∧
      processReserve (tokenLists chain) reservesData reserve = some a := by
  simp only [handleLiquidityRates] at hnr
  rw [List.mem_filterMap] at hnr
  obtain ⟨p, hp, hfetch⟩ := hnr
  cases ho : outcomes p.1 with
  | failure =>
    rw [ho] at hfetch
    exact absurd hfetch (by simp [fetchContractData])
  | success ur rd =>
    rw [ho] at hfetch
    simp only [fetchContractData] at hfetch
    cases hm : mapGet networkMetadata p.1 with
    | none =>
      simp only [hm] at hfetch
      exact Option.noConfusion hfetch
    | some nm =>
      simp only [hm] at hfetch
      by_cases hl : 0 < ((computeAssets (tokenLists p.1) rd ur).filterMap id).length
      case neg =>
        rw [if_neg hl] at hfetch
        simp at hfetch
      case pos =>
        rw [if_pos hl] at hfetch
        cases hs : sumAssetsUSD (computeAssets (tokenLists p.1) rd ur) with
        | none =>
          simp only [hs] at hfetch
          exact Option.noConfusion hfetch
        | some total =>
          simp only [hs] at hfetch
          obtain rfl := Option.some.inj hfetch
          have ha2 : a ∈ (computeAssets (tokenLists p.1) rd ur).filterMap id := ha
          rw [List.mem_filterMap] at ha2
          obtain ⟨oa, hoa, hida⟩ := ha2
          unfold computeAssets at hoa
          rw [List.mem_map] at hoa
          obtain ⟨reserve, hres, hpr⟩ := hoa
          rw [List.mem_filter] at hres
          refine ⟨p.1, ur, rd, reserve, ho, of_decide_eq_true hres.2, ?_⟩
          rw [hpr]
          exact hida

/-- Claim C3: every asset in the HTTP response has `tokenBalance > 0`.  The
code filters on `scaledATokenBalance > 0` only, so this needs the protocol
invariant that a reserve's `liquidityIndex` is at least one ray (`10^27` —
the index starts at 1 ray and accumulates interest): then the integer
`scaled * index / 10^27` is at least the positive scaled balance. -/
theorem response_assets_tokenBalance_pos (outcomes : String → RpcOutcome)
    (tokenLists : String → TokenMap)
    (hray : ∀ chain userReserves reservesData,
      outcomes chain = .success userReserves reservesData →
      ∀ r ∈ reservesData, 10 ^ 27 ≤ r.liquidityIndex) :
    ∀ nr ∈ (handleLiquidityRates outcomes tokenLists).body,
      ∀ a ∈ nr.assets, 0 < a.tokenBalance := by
  intro nr hnr a ha
  obtain ⟨chain, ur, rd, reserve, ho, hpos, hpr⟩ := response_asset_origin hnr ha
  obtain ⟨r, hfind, htb, -, -⟩ := processReserve_eq_some hpr
  have hidx : 10 ^ 27 ≤ r.liquidityIndex :=
    hray chain ur rd ho r (List.mem_of_find?_eq_some hfind)
  rw [htb]
  unfold normalizeBalance
  have hraw : 0 < reserve.scaledATokenBalance * r.liquidityIndex / 10 ^ 27 := by
    have h1 : reserve.scaledATokenBalance ≤
        reserve.scaledATokenBalance * r.liquidityIndex / 10 ^ 27 := by
      calc reserve.scaledATokenBalance
          = reserve.scaledATokenBalance * 10 ^ 27 / 10 ^ 27 :=
            (Nat.mul_div_cancel _ (by norm_num)).symm
        _ ≤ reserve.scaledATokenBalance * r.liquidityIndex / 10 ^ 27 :=
            Nat.div_le_div_right (Nat.mul_le_mul (le_refl _) hidx)
    exact lt_of_lt_of_le hpos h1
  apply div_pos
  · exact_mod_cast hraw
  · positivity

theorem response_assets_tokenBalance_pos_witness :
    ∃ nr ∈ (handleLiquidityRates
        (fun _ => .success [⟨"0xaaa", 1⟩] [⟨"0xaaa", "AAA", 0, 10 ^ 27, 0, 10 ^ 8⟩])
        (fun _ => [])).body,
      ∃ a ∈ nr.assets, 0 < a.tokenBalance := by
  have hray : ∀ (chain : String) (userReserves : List UserReserve)
      (reservesData : List ReserveSnapshot),
      (fun _ : String => RpcOutcome.success [(⟨"0xaaa", 1⟩ : UserReserve)]
        [(⟨"0xaaa", "AAA", 0, 10 ^ 27, 0, 10 ^ 8⟩ : ReserveSnapshot)]) chain =
        .success userReserves reservesData →
      ∀ r ∈ reservesData, 10 ^ 27 ≤ r.liquidityIndex := by
    intro chain ur rd h r hr
    cases h
    simp only [List.mem_singleton] at hr
    subst hr
    exact Nat.le_refl _
  have hsome : (fetchContractData "ethereum"
      (.success [⟨"0xaaa", 1⟩] [⟨"0xaaa", "AAA", 0, 10 ^ 27, 0, 10 ^ 8⟩]) []).isSome = true := rfl
  obtain ⟨nrW, hfetch⟩ := Option.isSome_iff_exists.mp hsome
  have hmem : nrW ∈ (handleLiquidityRates
      (fun _ => .success [⟨"0xaaa", 1⟩] [⟨"0xaaa", "AAA", 0, 10 ^ 27, 0, 10 ^ 8⟩])
      (fun _ => [])).body := by
    simp only [handleLiquidityRates]
    rw [List.mem_filterMap]
    exact ⟨("ethereum", "https://eth-mainnet.public.blastapi.io"), by simp [chainProviders], hfetch⟩
  have hlen : (fetchContractData "ethereum"
      (.success [⟨"0xaaa", 1⟩] [⟨"0xaaa", "AAA", 0, 10 ^ 27, 0, 10 ^ 8⟩]) []).elim 0
        (fun nr => nr.assets.length) = 1 := rfl
  rw [hfetch] at hlen
  simp only [Option.elim_some] at hlen
  obtain ⟨aW, haW⟩ := List.length_eq_one.mp hlen
  have hamem : aW ∈ nrW.assets := by
    rw [haW]
    exact List.mem_singleton.mpr rfl
  exact ⟨nrW, hmem, aW, hamem,
    response_assets_tokenBalance_pos
      (fun _ => .success [⟨"0xaaa", 1⟩] [⟨"0xaaa", "AAA", 0, 10 ^ 27, 0, 10 ^ 8⟩])
      (fun _ => []) hray nrW hmem aW hamem⟩

/-- Claim C4: every asset in the HTTP response satisfies
`balanceInUSD = tokenBalance * priceInUSD` — line 141 computes it as exactly
this product (exact over `ℚ`; the source value is the corresponding IEEE 754
product). -/
theorem response_assets_balanceInUSD_product (outcomes : String → RpcOutcome)
    (tokenLists : String → TokenMap) :
    ∀ nr ∈ (handleLiquidityRates outcomes tokenLists).body,
      ∀ a ∈ nr.assets, a.balanceInUSD = a.tokenBalance * a.priceInUSD := by
  intro nr hnr a ha
  obtain ⟨chain, ur, rd, reserve, ho, hpos, hpr⟩ := response_asset_origin hnr ha
  obtain ⟨r, hfind, -, -, hmul⟩ := processReserve_eq_some hpr
  exact hmul

theorem response_assets_balanceInUSD_product_witness :
    ∃ nr ∈ (handleLiquidityRates
        (fun _ => .success [⟨"0xb1", 3⟩] [⟨"0xb1", "USDC", 2, 10 ^ 27, 0, 10 ^ 8⟩])
        (fun _ => [])).body,
      ∃ a ∈ nr.assets, a.balanceInUSD = a.tokenBalance * a.priceInUSD := by
  have hsome : (fetchContractData "base"
      (.success [⟨"0xb1", 3⟩] [⟨"0xb1", "USDC", 2, 10 ^ 27, 0, 10 ^ 8⟩]) []).isSome = true := rfl
  obtain ⟨nrW, hfetch⟩ := Option.isSome_iff_exists.mp hsome
  have hmem : nrW ∈ (handleLiquidityRates
      (fun _ => .success [⟨"0xb1", 3⟩] [⟨"0xb1", "USDC", 2, 10 ^ 27, 0, 10 ^ 8⟩])
      (fun _ => [])).body := by
    simp only [handleLiquidityRates]
    rw [List.mem_filterMap]
    exact ⟨("base", "https://base-mainnet.public.blastapi.io"), by simp [chainProviders], hfetch⟩
  have hlen : (fetchContractData "base"
      (.success [⟨"0xb1", 3⟩] [⟨"0xb1", "USDC", 2, 10 ^ 27, 0, 10 ^ 8⟩]) []).elim 0
        (fun nr => nr.assets.length) = 1 := rfl
  rw [hfetch] at hlen
  simp only [Option.elim_some] at hlen
  obtain ⟨aW, haW⟩ := List.length_eq_one.mp hlen
  have hamem : aW ∈ nrW.assets := by
    rw [haW]
    exact List.mem_singleton.mpr rfl
  exact ⟨nrW, hmem, aW, hamem,
    response_assets_balanceInUSD_product
      (fun _ => .success [⟨"0xb1", 3⟩] [⟨"0xb1", "USDC", 2, 10 ^ 27, 0, 10 ^ 8⟩])
      (fun _ => []) nrW hmem aW hamem⟩
